import Mathlib

/-!
Shallow embedding of `c2qa/circuit.py` (class `CVCircuit`) from the
c2qa-qiskit repository, together with a model of the `QumodeRegister`
class whose file is not part of the sources.

Gate parameters (angles, displacement/squeezing amplitudes) are never
inspected by this code: they flow unchanged into calls of the external
strawberryfields operator library.  The embedding therefore treats them
as values of an arbitrary type `α`, and it records each call into the
external operator library symbolically (constructor `OpCall.*`), since
the matrices themselves are produced by a third-party library that is
not part of this repository.

Every method of `CVCircuit` is embedded as a function returning the
updated circuit together with an `Option String`: `some msg` models a
raised Python exception with message `msg`, `none` a normal return.
This keeps the partially mutated circuit visible when an exception is
raised mid-loop, exactly as Python's in-place mutation does.
-/

/-- Modelled from the spec: class `QumodeRegister`
(file `c2qa/qumoderegister.py`, which is not among the sources).
Per the spec, a qumode register is an ordered sequence of qumodes, each
represented by a fixed-width group of qubits, the cutoff dimension
determining the qubit count per mode (`⌈log2 cutoff⌉`); every qumode
maps to a disjoint, contiguous qubit range and the cutoff is uniform
across the register.  The constructor (as called in
`CVCircuit.cv_conditional`) takes the number of qumodes and the number
of qubits per mode. -/
structure QumodeRegister where
  num_qumodes : Nat
  num_qubits_per_mode : Nat
deriving DecidableEq, Repr

/-- Modelled from the spec: the register's uniform cutoff, the number of
Fock states representable per mode; with `k` qubits per mode this is
`2 ^ k`, so that `⌈log2 cutoff⌉ = k`. -/
def QumodeRegister.cutoff (qmr : QumodeRegister) : Nat :=
  2 ^ qmr.num_qubits_per_mode

/-- Modelled from the spec: `qmr[i]`, the contiguous group of qubit
indices of qumode `i` (mode `i` occupies qubits
`i*k, i*k+1, ..., i*k+k-1` where `k` is the qubit count per mode). -/
def QumodeRegister.modeQubits (qmr : QumodeRegister) (i : Nat) : List Nat :=
  (List.range qmr.num_qubits_per_mode).map (fun j => i * qmr.num_qubits_per_mode + j)

/-- A symbolic call into the external strawberryfields Fock-backend
operator library (`ops.beamsplitter`, `ops.displacement`, `ops.phase`,
`ops.squeezing`, `ops.two_mode_squeeze`), recording the function called
and the arguments passed.  The returned matrix itself is third-party
output and is kept opaque. -/
inductive OpCall (α : Type) where
  | beamsplitter (theta phi : α) (cutoff : Nat)
  | displacement (r phi : α) (cutoff : Nat)
  | phase (theta : α) (cutoff : Nat)
  | squeezing (r phi : α) (cutoff : Nat)
  | two_mode_squeeze (r phi : α) (cutoff : Nat)
deriving DecidableEq, Repr

/-- One instruction appended to a `CVCircuit`:
`init amplitudes qubits` models `QuantumCircuit.initialize(vector, qubits)`
(the amplitude vector here is always one-hot, entries 0 or 1, so `Nat`
entries are faithful); `unitary op qubits label` models
`QuantumCircuit.unitary(obj=matrix, qubits=..., label=...)` where
`matrix` came from the recorded library call `op`. -/
inductive Instruction (α : Type) where
  | init (amplitudes : List Nat) (qubits : List Nat)
  | unitary (op : OpCall α) (qubits : List Nat) (label : String)
deriving DecidableEq, Repr

/-- The state of a `CVCircuit`: its qumode register `qmr` and its ordered
instruction sequence.  (The plain qubit register `qr` and classical
register `cr` are stored but never used by any method in `circuit.py`,
so they are omitted from the state.) -/
structure CVCircuit (α : Type) where
  qmr : QumodeRegister
  instructions : List (Instruction α)
deriving DecidableEq, Repr

/-- The one-hot amplitude vector of `cv_initialize`:
`vector = numpy.zeros((cutoff,)); vector[n] = 1`. -/
def oneHot (cutoff n : Nat) : List Nat :=
  (List.range cutoff).map (fun i => if i = n then 1 else 0)

/-- The loop of `cv_initialize` over `enumerate(fock_states)`: for each
`(qumode, n)` in order, first the bound check (`n >= cutoff` raises
`ValueError`), then the one-hot vector is built and
`super().initialize(vector, self.qmr[qumode])` appends an instruction.
`acc` is the instruction list accumulated so far. -/
def cv_initialize_loop {α : Type} (qmr : QumodeRegister) (acc : List (Instruction α)) (qumode : Nat) : List Nat → List (Instruction α) × Option String
  | [] => (acc, none)
  | n :: rest =>
    if QumodeRegister.cutoff qmr ≤ n then
      (acc, some ("The parameter n should be lower than the cutoff"))
    else
      cv_initialize_loop qmr
        (acc ++ [Instruction.init (oneHot ( QumodeRegister.cutoff qmr) n) ( QumodeRegister.modeQubits qmr qumode)])
        (qumode + 1) rest

/-- `CVCircuit.cv_initialize(self, fock_states)`: runs the loop over
the requested Fock states starting at qumode 0; the first component is
the circuit as mutated so far (Python mutates `self` in place), the
second the raised exception, if any. -/
def cv_initialize {α : Type} (c : CVCircuit α) (fock_states : List Nat) : CVCircuit α × Option String :=
  (⟨c.qmr, ( cv_initialize_loop c.qmr c.instructions 0 fock_states).1⟩,
   ( cv_initialize_loop c.qmr c.instructions 0 fock_states).2)

/-- `CVCircuit.cv_bs(self, theta, qumode_a, qumode_b, phi=0.0)`:
`operator = ops.beamsplitter(theta, phi, self.qmr.cutoff)` followed by
`self.unitary(obj=operator, qubits=qumode_a + qumode_b, label='BS')`. -/
def cv_bs {α : Type} (c : CVCircuit α) (theta : α) (qumode_a qumode_b : List Nat) (phi : α) : CVCircuit α × Option String :=
  let operator := OpCall.beamsplitter theta phi ( QumodeRegister.cutoff c.qmr)
  (⟨c.qmr, c.instructions ++ [Instruction.unitary operator (qumode_a ++ qumode_b) ("BS")]⟩, none)

/-- `CVCircuit.cv_d(self, r, qumode, phi=0.0)`:
`operator = ops.displacement(r, phi, self.qmr.cutoff)` followed by
`self.unitary(obj=operator, qubits=qumode, label='D')`. -/
def cv_d {α : Type} (c : CVCircuit α) (r : α) (qumode : List Nat) (phi : α) : CVCircuit α × Option String :=
  let operator := OpCall.displacement r phi ( QumodeRegister.cutoff c.qmr)
  (⟨c.qmr, c.instructions ++ [Instruction.unitary operator qumode ("D")]⟩, none)

/-- `CVCircuit.cv_r(self, theta, qumode)`:
`operator = ops.phase(theta, self.qmr.cutoff)` followed by
`self.unitary(obj=operator, qubits=qumode, label='R')`. -/
def cv_r {α : Type} (c : CVCircuit α) (theta : α) (qumode : List Nat) : CVCircuit α × Option String :=
  let operator := OpCall.phase theta ( QumodeRegister.cutoff c.qmr)
  (⟨c.qmr, c.instructions ++ [Instruction.unitary operator qumode ("R")]⟩, none)

/-- `CVCircuit.cv_s(self, r, qumode, phi=0.0)`:
`operator = ops.squeezing(r, phi, self.qmr.cutoff)` followed by
`self.unitary(obj=operator, qubits=qumode, label='S')`. -/
def cv_s {α : Type} (c : CVCircuit α) (r : α) (qumode : List Nat) (phi : α) : CVCircuit α × Option String :=
  let operator := OpCall.squeezing r phi ( QumodeRegister.cutoff c.qmr)
  (⟨c.qmr, c.instructions ++ [Instruction.unitary operator qumode ("S")]⟩, none)

/-- `CVCircuit.cv_s2(self, r, qumode_a, qumode_b, phi=0.0)`:
`operator = ops.two_mode_squeeze(r, phi, self.qmr.cutoff)` followed by
`self.unitary(obj=operator, qubits=qumode_a + qumode_b, label='S2')`. -/
def cv_s2 {α : Type} (c : CVCircuit α) (r : α) (qumode_a qumode_b : List Nat) (phi : α) : CVCircuit α × Option String :=
  let operator := OpCall.two_mode_squeeze r phi ( QumodeRegister.cutoff c.qmr)
  (⟨c.qmr, c.instructions ++ [Instruction.unitary operator (qumode_a ++ qumode_b) ("S2")]⟩, none)

/-- `CVCircuit.cv_cnd_d(self, alpha, beta, ctrl, qumode_a, qumode_b)`.
The body of the source method is a single `print("hello")` statement
(the line appending a conditional displacement is commented out), so the
circuit is returned unchanged and no exception is raised. -/
def cv_cnd_d {α : Type} (c : CVCircuit α) (alpha beta : α) (ctrl : Nat) (qumode_a qumode_b : List Nat) : CVCircuit α × Option String :=
  (c, none)

/-- `CVCircuit.cv_cnd_s(self, z_a, z_b, ctrl, qumode_a, qumode_b)`.
As with `cv_cnd_d`, the source body is a single `print("hello")`
statement, so the circuit is returned unchanged. -/
def cv_cnd_s {α : Type} (c : CVCircuit α) (z_a z_b : α) (ctrl : Nat) (qumode_a qumode_b : List Nat) : CVCircuit α × Option String :=
  (c, none)

/-- `UnitaryGate(op).control(num_ctrl_qubits=..., ctrl_state=...)`:
a controlled unitary gate built from an operator matrix `base` of
arbitrary type `β` (the matrices handed to `cv_conditional` are opaque
arguments). -/
structure ControlledGate (β : Type) where
  base : β
  num_ctrl_qubits : Nat
  ctrl_state : Nat
deriving DecidableEq, Repr

/-- One `append(gate, qubits)` entry of the scratch circuit built inside
`cv_conditional`.  Qubit indices are global indices of the scratch
circuit `QuantumCircuit(sub_qmr.qreg, sub_qr)`: the qubits of
`sub_qmr.qreg` come first (indices `0 .. n*k - 1`), then the single
qubit of `sub_qr` (index `n*k`). -/
structure SubInstruction (β : Type) where
  gate : ControlledGate β
  qubits : List Nat
deriving DecidableEq, Repr

/-- The scratch circuit of `cv_conditional`, returned via
`to_instruction()` as a reusable instruction. -/
structure SubCircuit (β : Type) where
  qmr : QumodeRegister
  name : String
  data : List (SubInstruction β)
deriving DecidableEq, Repr

/-- `CVCircuit.cv_conditional(self, name, op_a, op_b)`:
builds `sub_qmr = QumodeRegister(self.qmr.num_qumodes,
self.qmr.num_qubits_per_mode)`, a one-qubit register `sub_qr`, a scratch
circuit over both, appends `UnitaryGate(op_a).control(1, ctrl_state=0)`
on `[sub_qr[0]] + sub_qmr[0]` and `UnitaryGate(op_b).control(1,
ctrl_state=1)` on `[sub_qr[0]] + sub_qmr[1]`, and returns the scratch
circuit as an instruction. -/
def cv_conditional {α β : Type} (c : CVCircuit α) (name : String) (op_a op_b : β) : SubCircuit β × Option String :=
  let sub_qmr : QumodeRegister := ⟨c.qmr.num_qumodes, c.qmr.num_qubits_per_mode⟩
  let sub_qr0 : Nat := sub_qmr.num_qumodes * sub_qmr.num_qubits_per_mode
  (⟨sub_qmr, name,
    [⟨⟨op_a, 1, 0⟩, sub_qr0 :: QumodeRegister.modeQubits sub_qmr 0⟩,
     ⟨⟨op_b, 1, 1⟩, sub_qr0 :: QumodeRegister.modeQubits sub_qmr 1⟩]⟩, none)

/-- The instruction sequence the `cv_initialize` loop appends for a list
of valid Fock indices, starting at qumode `qumode`: one `init`
instruction per list entry, in list order. -/
def initInstructionsFrom {α : Type} (qmr : QumodeRegister) (qumode : Nat) : List Nat → List (Instruction α)
  | [] => []
  | n :: rest =>
      Instruction.init (oneHot ( QumodeRegister.cutoff qmr) n) ( QumodeRegister.modeQubits qmr qumode)
        :: initInstructionsFrom qmr (qumode + 1) rest

/-! ### Helper lemmas -/

/-- The loop of `cv_initialize` terminates without an exception exactly
when every Fock index in the list is below the cutoff. -/
theorem cv_initialize_loop_none_iff {α : Type} (qmr : QumodeRegister) (acc : List (Instruction α)) (q : Nat) (fs : List Nat) :
    ( cv_initialize_loop qmr acc q fs).2 = none ↔ ∀ n ∈ fs, n < QumodeRegister.cutoff qmr := by
  induction fs generalizing acc q with
  | nil => simp [cv_initialize_loop]
  | cons n rest ih =>
    by_cases h : QumodeRegister.cutoff qmr ≤ n
    · rw [cv_initialize_loop, if_pos h]
      simp only [Option.some_ne_none, false_iff, List.forall_mem_cons, not_and]
      intro hn
      exact absurd hn (not_lt.mpr h)
    · rw [cv_initialize_loop, if_neg h, ih]
      simp [List.forall_mem_cons, Nat.lt_of_not_le h]

/-- On a list of all-valid Fock indices the loop appends exactly one
`init` instruction per index, in order, and raises nothing. -/
theorem cv_initialize_loop_ok {α : Type} (qmr : QumodeRegister) (acc : List (Instruction α)) (q : Nat) (fs : List Nat)
    (h : ∀ n ∈ fs, n < QumodeRegister.cutoff qmr) :
    cv_initialize_loop qmr acc q fs = (acc ++ initInstructionsFrom qmr q fs, none) := by
  induction fs generalizing acc q with
  | nil => simp [cv_initialize_loop, initInstructionsFrom]
  | cons n rest ih =>
    have hn : n < QumodeRegister.cutoff qmr := h n (List.mem_cons_self n rest)
    rw [cv_initialize_loop, if_neg (not_le.mpr hn),
      ih _ _ (fun m hm => h m (List.mem_cons_of_mem n hm))]
    simp [initInstructionsFrom]

/-- When the list is a block of valid indices followed by an offending
index, the loop appends the instructions for the valid block and then
raises, leaving the appended block in place. -/
theorem cv_initialize_loop_err {α : Type} (qmr : QumodeRegister) (acc : List (Instruction α)) (q : Nat) (pre : List Nat) (bad : Nat) (rest : List Nat)
    (hpre : ∀ n ∈ pre, n < QumodeRegister.cutoff qmr) (hbad : QumodeRegister.cutoff qmr ≤ bad) :
    cv_initialize_loop qmr acc q (pre ++ bad :: rest)
      = (acc ++ initInstructionsFrom qmr q pre, some ("The parameter n should be lower than the cutoff")) := by
  induction pre generalizing acc q with
  | nil =>
    rw [List.nil_append, cv_initialize_loop, if_pos hbad]
    simp [initInstructionsFrom]
  | cons n pre' ih =>
    have hn : n < QumodeRegister.cutoff qmr := hpre n (List.mem_cons_self n pre')
    rw [List.cons_append, cv_initialize_loop, if_neg (not_le.mpr hn),
      ih _ _ (fun m hm => hpre m (List.mem_cons_of_mem n hm))]
    simp [initInstructionsFrom]

/-- One instruction is appended per processed Fock index. -/
theorem initInstructionsFrom_length {α : Type} (qmr : QumodeRegister) (q : Nat) (fs : List Nat) :
    ( initInstructionsFrom (α := α) qmr q fs).length = fs.length := by
  induction fs generalizing q with
  | nil => simp [initInstructionsFrom]
  | cons n rest ih => simp [initInstructionsFrom, ih]

/-- The one-hot vector has length `cutoff`. -/
theorem oneHot_length (cutoff n : Nat) : ( oneHot cutoff n).length = cutoff := by
  simp [oneHot]

/-- Entry `m` of the one-hot vector for index `n` is `1` at `m = n` and
`0` elsewhere. -/
theorem oneHot_getD (cutoff n m : Nat) (hm : m < cutoff) :
    ( oneHot cutoff n).getD m 0 = if m = n then 1 else 0 := by
  have hlen : m < ( oneHot cutoff n).length := by simpa [oneHot] using hm
  rw [List.getD_eq_getElem _ _ hlen]
  simp [oneHot]

/-- Membership in a mode's qubit group. -/
theorem mem_modeQubits (qmr : QumodeRegister) (i q : Nat) :
    q ∈ QumodeRegister.modeQubits qmr i
      ↔ ∃ j, j < qmr.num_qubits_per_mode ∧ q = i * qmr.num_qubits_per_mode + j := by
  simp [QumodeRegister.modeQubits, eq_comm]

/-- Distinct qumodes occupy disjoint qubit groups. -/
theorem modeQubits_disjoint (qmr : QumodeRegister) (i j : Nat) (hij : i ≠ j) :
    ∀ q ∈ QumodeRegister.modeQubits qmr i, q ∉ QumodeRegister.modeQubits qmr j := by
  intro q hqi hqj
  rw [mem_modeQubits] at hqi hqj
  obtain ⟨a, ha, rfl⟩ := hqi
  obtain ⟨b, hb, hab⟩ := hqj
  rcases Nat.lt_trichotomy i j with hlt | heq | hgt
  · have h1 : i * qmr.num_qubits_per_mode + qmr.num_qubits_per_mode ≤ j * qmr.num_qubits_per_mode := by
      have := Nat.mul_le_mul_right qmr.num_qubits_per_mode hlt
      simpa [Nat.succ_mul] using this
    set x := i * qmr.num_qubits_per_mode with hx
    set y := j * qmr.num_qubits_per_mode with hy
    omega
  · exact hij heq
  · have h1 : j * qmr.num_qubits_per_mode + qmr.num_qubits_per_mode ≤ i * qmr.num_qubits_per_mode := by
      have := Nat.mul_le_mul_right qmr.num_qubits_per_mode hgt
      simpa [Nat.succ_mul] using this
    set x := i * qmr.num_qubits_per_mode with hx
    set y := j * qmr.num_qubits_per_mode with hy
    omega

/-- Each mode's qubit group is the contiguous run starting at
`i * num_qubits_per_mode`. -/
theorem modeQubits_eq_range' (qmr : QumodeRegister) (i : Nat) :
    QumodeRegister.modeQubits qmr i
      = List.range' (i * qmr.num_qubits_per_mode) qmr.num_qubits_per_mode := by
  rw [List.range'_eq_map_range]
  rfl

/-! ### Claim theorems -/

/-- C1: a call of `cv_initialize` raises a `ValueError` if and only if
some requested Fock-state index in the list is greater than or equal to
the register's cutoff; for lists whose indices are all strictly below
the cutoff, no error is raised. -/
theorem cv_initialize_raises_iff_index_ge_cutoff {α : Type} (c : CVCircuit α) (fock_states : List Nat) :
    (( cv_initialize c fock_states).2).isSome = true
      ↔ ∃ n ∈ fock_states, QumodeRegister.cutoff c.qmr ≤ n := by
  rw [Option.isSome_iff_ne_none]
  simp only [ cv_initialize, Ne, cv_initialize_loop_none_iff]
  push_neg
  rfl

/-- C4: each of `cv_bs`, `cv_d`, `cv_r`, `cv_s`, `cv_s2` makes exactly
one call into the external operator library, passing the user-given
angle parameters together with the register's cutoff, and appends the
returned matrix unchanged as a single opaque unitary operation on the
given qumode's qubit list (on `qumode_a ++ qumode_b` for the two-mode
gates `cv_bs` and `cv_s2`), raising nothing. -/
theorem cv_gate_builders_one_library_call_per_gate {α : Type} (c : CVCircuit α) (theta phi r : α) (qumode_a qumode_b qumode : List Nat) :
    cv_bs c theta qumode_a qumode_b phi
      = (⟨c.qmr, c.instructions
          ++ [Instruction.unitary (OpCall.beamsplitter theta phi ( QumodeRegister.cutoff c.qmr)) (qumode_a ++ qumode_b) ("BS")]⟩, none)
    ∧ cv_d c r qumode phi
      = (⟨c.qmr, c.instructions
          ++ [Instruction.unitary (OpCall.displacement r phi ( QumodeRegister.cutoff c.qmr)) qumode ("D")]⟩, none)
    ∧ cv_r c theta qumode
      = (⟨c.qmr, c.instructions
          ++ [Instruction.unitary (OpCall.phase theta ( QumodeRegister.cutoff c.qmr)) qumode ("R")]⟩, none)
    ∧ cv_s c r qumode phi
      = (⟨c.qmr, c.instructions
          ++ [Instruction.unitary (OpCall.squeezing r phi ( QumodeRegister.cutoff c.qmr)) qumode ("S")]⟩, none)
    ∧ cv_s2 c r qumode_a qumode_b phi
      = (⟨c.qmr, c.instructions
          ++ [Instruction.unitary (OpCall.two_mode_squeeze r phi ( QumodeRegister.cutoff c.qmr)) (qumode_a ++ qumode_b) ("S2")]⟩, none) :=
  ⟨rfl, rfl, rfl, rfl, rfl⟩

/-- C5: for a list of requested Fock-state indices all strictly below
the cutoff, `cv_initialize` appends, for each index `n` and its qumode
in list order, an initialization of that qumode's qubits with an
amplitude vector of length `cutoff` whose entry at index `n` is `1` and
whose every other entry is `0`. -/
theorem cv_initialize_builds_one_hot_vector {α : Type} (c : CVCircuit α) (fock_states : List Nat)
    (h : ∀ n ∈ fock_states, n < QumodeRegister.cutoff c.qmr) :
    cv_initialize c fock_states
      = (⟨c.qmr, c.instructions ++ initInstructionsFrom c.qmr 0 fock_states⟩, none)
    ∧ ∀ n < QumodeRegister.cutoff c.qmr,
        ( oneHot ( QumodeRegister.cutoff c.qmr) n).length = QumodeRegister.cutoff c.qmr
        ∧ ( oneHot ( QumodeRegister.cutoff c.qmr) n).getD n 0 = 1
        ∧ ∀ m < QumodeRegister.cutoff c.qmr, m ≠ n
            → ( oneHot ( QumodeRegister.cutoff c.qmr) n).getD m 0 = 0 := by
  refine ⟨?_, ?_⟩
  · simp only [ cv_initialize, cv_initialize_loop_ok c.qmr c.instructions 0 fock_states h]
  · intro n hn
    refine ⟨oneHot_length _ _, ?_, ?_⟩
    · rw [oneHot_getD _ _ _ hn]
      simp
    · intro m hm hmn
      rw [oneHot_getD _ _ _ hm]
      simp [hmn]

/-- C5 witness: the theorem applied to a register with 2 qumodes of 2
qubits each (cutoff 4) and the request list `[1, 2]`. -/
theorem cv_initialize_builds_one_hot_vector_witness :
    (∀ n ∈ [1, 2], n < QumodeRegister.cutoff ⟨2, 2⟩)
    ∧ ( cv_initialize (⟨⟨2, 2⟩, []⟩ : CVCircuit Int) [1, 2]
        = (⟨⟨2, 2⟩, [] ++ initInstructionsFrom ⟨2, 2⟩ 0 [1, 2]⟩, none)
      ∧ ∀ n < QumodeRegister.cutoff ⟨2, 2⟩,
          ( oneHot ( QumodeRegister.cutoff ⟨2, 2⟩) n).length = QumodeRegister.cutoff ⟨2, 2⟩
          ∧ ( oneHot ( QumodeRegister.cutoff ⟨2, 2⟩) n).getD n 0 = 1
          ∧ ∀ m < QumodeRegister.cutoff ⟨2, 2⟩, m ≠ n
              → ( oneHot ( QumodeRegister.cutoff ⟨2, 2⟩) n).getD m 0 = 0) :=
  ⟨by decide, cv_initialize_builds_one_hot_vector (⟨⟨2, 2⟩, []⟩ : CVCircuit Int) [1, 2] (by decide)⟩

/-- C9: `cv_initialize` is not atomic on error: on a list made of valid
indices followed by an index at or above the cutoff, it raises the
`ValueError` only after having appended one initialization instruction
per earlier qumode, and those instructions remain in the circuit. -/
theorem cv_initialize_not_atomic_on_error {α : Type} (c : CVCircuit α) (pre : List Nat) (bad : Nat) (rest : List Nat)
    (hpre : ∀ n ∈ pre, n < QumodeRegister.cutoff c.qmr)
    (hbad : QumodeRegister.cutoff c.qmr ≤ bad) :
    cv_initialize c (pre ++ bad :: rest)
      = (⟨c.qmr, c.instructions ++ initInstructionsFrom c.qmr 0 pre⟩,
         some ("The parameter n should be lower than the cutoff"))
    ∧ ( initInstructionsFrom (α := α) c.qmr 0 pre).length = pre.length := by
  refine ⟨?_, initInstructionsFrom_length _ _ _⟩
  simp only [ cv_initialize, cv_initialize_loop_err c.qmr c.instructions 0 pre bad rest hpre hbad]

/-- C9 witness: the theorem applied with cutoff 4, one valid leading
index `1` and offending index `7`; the circuit gains one instruction
before the error. -/
theorem cv_initialize_not_atomic_on_error_witness :
    (∀ n ∈ [1], n < QumodeRegister.cutoff ⟨2, 2⟩)
    ∧ QumodeRegister.cutoff ⟨2, 2⟩ ≤ 7
    ∧ ( cv_initialize (⟨⟨2, 2⟩, []⟩ : CVCircuit Int) ([1] ++ 7 :: [0])
        = (⟨⟨2, 2⟩, [] ++ initInstructionsFrom ⟨2, 2⟩ 0 [1]⟩,
           some ("The parameter n should be lower than the cutoff"))
      ∧ ( initInstructionsFrom (α := Int) ⟨2, 2⟩ 0 [1]).length = [1].length) :=
  ⟨by decide, by decide,
    cv_initialize_not_atomic_on_error (⟨⟨2, 2⟩, []⟩ : CVCircuit Int) [1] 7 [0] (by decide) (by decide)⟩

/-- C2 (code bug): `cv_cnd_d` and `cv_cnd_s` do not mutate the circuit.
At a concrete circuit with concrete parameters, each call returns the
instruction sequence unchanged: the source bodies consist of a single
`print("hello")` with the conditional-gate append commented out,
contradicting the spec and the repository's own tests (which expect a
qubit-conditioned gate to be appended). -/
theorem cv_cnd_gates_leave_circuit_unchanged :
    (( cv_cnd_d (⟨⟨1, 2⟩, []⟩ : CVCircuit Int) 2 (-2) 4 [0, 1] [0, 1]).1).instructions = ([] : List (Instruction Int))
    ∧ (( cv_cnd_s (⟨⟨1, 2⟩, []⟩ : CVCircuit Int) 1 (-1) 4 [0, 1] [0, 1]).1).instructions = ([] : List (Instruction Int)) :=
  ⟨rfl, rfl⟩

/-- C3: for every pair of operators, `cv_conditional` returns (as a
reusable instruction) a fresh scratch circuit containing exactly two
controlled unitary gates, both conditioned on the same single control
qubit (the scratch circuit's last qubit): `op_a` with control state 0
and `op_b` with control state 1. -/
theorem cv_conditional_builds_two_branch_instruction {α β : Type} (c : CVCircuit α) (name : String) (op_a op_b : β) :
    cv_conditional c name op_a op_b
      = (⟨⟨c.qmr.num_qumodes, c.qmr.num_qubits_per_mode⟩, name,
          [⟨⟨op_a, 1, 0⟩, (c.qmr.num_qumodes * c.qmr.num_qubits_per_mode)
              :: QumodeRegister.modeQubits ⟨c.qmr.num_qumodes, c.qmr.num_qubits_per_mode⟩ 0⟩,
           ⟨⟨op_b, 1, 1⟩, (c.qmr.num_qumodes * c.qmr.num_qubits_per_mode)
              :: QumodeRegister.modeQubits ⟨c.qmr.num_qumodes, c.qmr.num_qubits_per_mode⟩ 1⟩]⟩, none)
    ∧ (( cv_conditional c name op_a op_b).1).data.length = 2
    ∧ (∀ g ∈ (( cv_conditional c name op_a op_b).1).data,
        g.gate.num_ctrl_qubits = 1
        ∧ g.qubits.head? = some (c.qmr.num_qumodes * c.qmr.num_qubits_per_mode))
    ∧ ((( cv_conditional c name op_a op_b).1).data.map (fun g => (g.gate.base, g.gate.ctrl_state)))
        = [(op_a, 0), (op_b, 1)] := by
  refine ⟨rfl, rfl, ?_, rfl⟩
  intro g hg
  simp only [cv_conditional, List.mem_cons, List.mem_singleton, List.not_mem_nil, or_false] at hg
  rcases hg with rfl | rfl
  · exact ⟨rfl, rfl⟩
  · exact ⟨rfl, rfl⟩

/-- C7: none of the gate builders nor `cv_conditional` raises an error
of its own for any input; the cutoff bound check in `cv_initialize` is
the only error path in this code, and it fires exactly when some index
reaches the cutoff. -/
theorem only_error_path_is_cutoff_bound_check {α β : Type} (c : CVCircuit α)
    (theta phi r alpha beta : α) (qumode_a qumode_b qumode : List Nat) (ctrl : Nat)
    (name : String) (op_a op_b : β) (fock_states : List Nat) :
    ( cv_bs c theta qumode_a qumode_b phi).2 = none
    ∧ ( cv_d c r qumode phi).2 = none
    ∧ ( cv_r c theta qumode).2 = none
    ∧ ( cv_s c r qumode phi).2 = none
    ∧ ( cv_s2 c r qumode_a qumode_b phi).2 = none
    ∧ ( cv_conditional c name op_a op_b).2 = none
    ∧ ( cv_cnd_d c alpha beta ctrl qumode_a qumode_b).2 = none
    ∧ ( cv_cnd_s c alpha beta ctrl qumode_a qumode_b).2 = none
    ∧ (( cv_initialize c fock_states).2 = none
        ↔ ∀ n ∈ fock_states, n < QumodeRegister.cutoff c.qmr) := by
  refine ⟨rfl, rfl, rfl, rfl, rfl, rfl, rfl, rfl, ?_⟩
  exact cv_initialize_loop_none_iff c.qmr c.instructions 0 fock_states

/-- C8: in the modelled qumode register each qumode is a fixed-width
group of `⌈log2 cutoff⌉` qubits, every qumode maps to a disjoint,
contiguous qubit range, and every operation of this code leaves the
register (hence the mapping) unchanged. -/
theorem qumode_register_mapping_invariants (qmr : QumodeRegister) (i j : Nat) (hij : i ≠ j) :
    ( QumodeRegister.modeQubits qmr i).length = qmr.num_qubits_per_mode
    ∧ QumodeRegister.modeQubits qmr i
        = List.range' (i * qmr.num_qubits_per_mode) qmr.num_qubits_per_mode
    ∧ qmr.num_qubits_per_mode = Nat.clog 2 ( QumodeRegister.cutoff qmr)
    ∧ (∀ q ∈ QumodeRegister.modeQubits qmr i, q ∉ QumodeRegister.modeQubits qmr j)
    ∧ (∀ (α : Type) (c : CVCircuit α) (theta phi r alpha beta : α)
        (qa qb qm : List Nat) (ctrl : Nat) (fs : List Nat),
        (( cv_bs c theta qa qb phi).1).qmr = c.qmr
        ∧ (( cv_d c r qm phi).1).qmr = c.qmr
        ∧ (( cv_r c theta qm).1).qmr = c.qmr
        ∧ (( cv_s c r qm phi).1).qmr = c.qmr
        ∧ (( cv_s2 c r qa qb phi).1).qmr = c.qmr
        ∧ (( cv_cnd_d c alpha beta ctrl qa qb).1).qmr = c.qmr
        ∧ (( cv_cnd_s c alpha beta ctrl qa qb).1).qmr = c.qmr
        ∧ (( cv_initialize c fs).1).qmr = c.qmr) := by
  refine ⟨?_, modeQubits_eq_range' qmr i, ?_, modeQubits_disjoint qmr i j hij, ?_⟩
  · simp [QumodeRegister.modeQubits]
  · rw [QumodeRegister.cutoff, Nat.clog_pow 2 _ (by norm_num)]
  · intro α c theta phi r alpha beta qa qb qm ctrl fs
    exact ⟨rfl, rfl, rfl, rfl, rfl, rfl, rfl, rfl⟩

/-- C8 witness: the invariants theorem applied to a register with 2
qumodes of 2 qubits each and the distinct modes 0 and 1. -/
theorem qumode_register_mapping_invariants_witness :
    (0 : Nat) ≠ 1
    ∧ (( QumodeRegister.modeQubits ⟨2, 2⟩ 0).length = (⟨2, 2⟩ : QumodeRegister).num_qubits_per_mode
      ∧ QumodeRegister.modeQubits ⟨2, 2⟩ 0
          = List.range' (0 * (⟨2, 2⟩ : QumodeRegister).num_qubits_per_mode) (⟨2, 2⟩ : QumodeRegister).num_qubits_per_mode
      ∧ (⟨2, 2⟩ : QumodeRegister).num_qubits_per_mode = Nat.clog 2 ( QumodeRegister.cutoff ⟨2, 2⟩)
      ∧ (∀ q ∈ QumodeRegister.modeQubits ⟨2, 2⟩ 0, q ∉ QumodeRegister.modeQubits ⟨2, 2⟩ 1)
      ∧ (∀ (α : Type) (c : CVCircuit α) (theta phi r alpha beta : α)
          (qa qb qm : List Nat) (ctrl : Nat) (fs : List Nat),
          (( cv_bs c theta qa qb phi).1).qmr = c.qmr
          ∧ (( cv_d c r qm phi).1).qmr = c.qmr
          ∧ (( cv_r c theta qm).1).qmr = c.qmr
          ∧ (( cv_s c r qm phi).1).qmr = c.qmr
          ∧ (( cv_s2 c r qa qb phi).1).qmr = c.qmr
          ∧ (( cv_cnd_d c alpha beta ctrl qa qb).1).qmr = c.qmr
          ∧ (( cv_cnd_s c alpha beta ctrl qa qb).1).qmr = c.qmr
          ∧ (( cv_initialize c fs).1).qmr = c.qmr)) :=
  ⟨by decide, qumode_register_mapping_invariants ⟨2, 2⟩ 0 1 (by decide)⟩

/-- C10: the two controlled gates of `cv_conditional` act on different,
in fact disjoint, target qubit ranges of the scratch register (`op_a`,
controlled on state 0, targets qumode 0; `op_b`, controlled on state 1,
targets qumode 1), and the scratch register has the same number of
qumodes and qubits per mode as the circuit's own register regardless of
the operators passed. -/
theorem cv_conditional_branch_targets_disjoint {α β : Type} (c : CVCircuit α) (name : String) (op_a op_b : β)
    (hk : 0 < c.qmr.num_qubits_per_mode) :
    (( cv_conditional c name op_a op_b).1).qmr.num_qumodes = c.qmr.num_qumodes
    ∧ (( cv_conditional c name op_a op_b).1).qmr.num_qubits_per_mode = c.qmr.num_qubits_per_mode
    ∧ ((( cv_conditional c name op_a op_b).1).data.map (fun g => (g.gate.base, g.gate.ctrl_state, g.qubits.tail)))
        = [(op_a, 0, QumodeRegister.modeQubits (( cv_conditional c name op_a op_b).1).qmr 0),
           (op_b, 1, QumodeRegister.modeQubits (( cv_conditional c name op_a op_b).1).qmr 1)]
    ∧ QumodeRegister.modeQubits (( cv_conditional c name op_a op_b).1).qmr 0
        ≠ QumodeRegister.modeQubits (( cv_conditional c name op_a op_b).1).qmr 1
    ∧ (∀ q ∈ QumodeRegister.modeQubits (( cv_conditional c name op_a op_b).1).qmr 0,
        q ∉ QumodeRegister.modeQubits (( cv_conditional c name op_a op_b).1).qmr 1) := by
  refine ⟨rfl, rfl, rfl, ?_, modeQubits_disjoint _ 0 1 (by decide)⟩
  intro hEq
  have hk' : 0 < (( cv_conditional c name op_a op_b).1).qmr.num_qubits_per_mode := hk
  have h0 : 0 ∈ QumodeRegister.modeQubits (( cv_conditional c name op_a op_b).1).qmr 0 := by
    rw [mem_modeQubits]
    exact ⟨0, hk', by simp⟩
  have h1 := modeQubits_disjoint (( cv_conditional c name op_a op_b).1).qmr 0 1 (by decide) 0 h0
  rw [hEq] at h0
  exact h1 h0

/-- C10 witness: the theorem applied to a concrete circuit (2 qumodes of
2 qubits each) with concrete operators 5 and 7. -/
theorem cv_conditional_branch_targets_disjoint_witness :
    0 < (⟨⟨2, 2⟩, []⟩ : CVCircuit Int).qmr.num_qubits_per_mode
    ∧ ((( cv_conditional (⟨⟨2, 2⟩, []⟩ : CVCircuit Int) ("Dc") (5 : Int) 7).1).qmr.num_qumodes
          = (⟨⟨2, 2⟩, []⟩ : CVCircuit Int).qmr.num_qumodes
      ∧ (( cv_conditional (⟨⟨2, 2⟩, []⟩ : CVCircuit Int) ("Dc") (5 : Int) 7).1).qmr.num_qubits_per_mode
          = (⟨⟨2, 2⟩, []⟩ : CVCircuit Int).qmr.num_qubits_per_mode
      ∧ ((( cv_conditional (⟨⟨2, 2⟩, []⟩ : CVCircuit Int) ("Dc") (5 : Int) 7).1).data.map
            (fun g => (g.gate.base, g.gate.ctrl_state, g.qubits.tail)))
          = [((5 : Int), 0, QumodeRegister.modeQubits (( cv_conditional (⟨⟨2, 2⟩, []⟩ : CVCircuit Int) ("Dc") (5 : Int) 7).1).qmr 0),
             ((7 : Int), 1, QumodeRegister.modeQubits (( cv_conditional (⟨⟨2, 2⟩, []⟩ : CVCircuit Int) ("Dc") (5 : Int) 7).1).qmr 1)]
      ∧ QumodeRegister.modeQubits (( cv_conditional (⟨⟨2, 2⟩, []⟩ : CVCircuit Int) ("Dc") (5 : Int) 7).1).qmr 0
          ≠ QumodeRegister.modeQubits (( cv_conditional (⟨⟨2, 2⟩, []⟩ : CVCircuit Int) ("Dc") (5 : Int) 7).1).qmr 1
      ∧ (∀ q ∈ QumodeRegister.modeQubits (( cv_conditional (⟨⟨2, 2⟩, []⟩ : CVCircuit Int) ("Dc") (5 : Int) 7).1).qmr 0,
          q ∉ QumodeRegister.modeQubits (( cv_conditional (⟨⟨2, 2⟩, []⟩ : CVCircuit Int) ("Dc") (5 : Int) 7).1).qmr 1)) :=
  ⟨by decide, cv_conditional_branch_targets_disjoint (⟨⟨2, 2⟩, []⟩ : CVCircuit Int) ("Dc") (5 : Int) 7 (by decide)⟩
